import Mathlib

/-!
Verification of the weather notification bot (src/main.py) against its
specification. Strings are modelled as lists of characters; Python string
operations (strip, replace, find, split, in) are given explicit executable
models. Network effects (the HTTP fetch and the push POST) are out of scope:
the fetched forecast document is a parameter, and the push request is
represented by the value carried in the success branch of the pipeline, so
an error result means no push was attempted.
-/

namespace WeatherBot

/-- Convert a string literal to the character-list representation. -/
def strL (s : String) : List Char := s.toList

/-- Model of Python str.isspace for a single character: the whitespace
characters stripped by str.strip(), including the full-width space U+3000. -/
def pyIsSpace (c : Char) : Bool :=
  [' ', '\t', '\n', '\x0b', '\x0c', '\r',
   '\u001c', '\u001d', '\u001e', '\u001f', '\u0085', '\u00a0', '\u1680',
   '\u2000', '\u2001', '\u2002', '\u2003', '\u2004', '\u2005', '\u2006',
   '\u2007', '\u2008', '\u2009', '\u200a', '\u2028', '\u2029', '\u202f',
   '\u205f', '\u3000'].contains c

def pyStripLeft (l : List Char) : List Char := l.dropWhile pyIsSpace

/-- Drop trailing whitespace (right half of Python str.strip()). -/
def pyStripRight (l : List Char) : List Char :=
  ((l.reverse).dropWhile pyIsSpace).reverse

/-- Model of Python str.strip(): drop leading and trailing whitespace. -/
def pyStrip (l : List Char) : List Char := pyStripRight (pyStripLeft l)

/-- Model of raw.replace("　", " ") in normalize_weather_text (line 52):
replace every full-width space with an ASCII space. -/
def replFw : List Char → List Char
  | [] => []
  | c :: r => (if c = '　' then ' ' else c) :: replFw r

/-- Model of t.replace("曇り", "くもり") (line 55): replace each
non-overlapping occurrence, scanning left to right. -/
def replKumori : List Char → List Char
  | [] => []
  | [c] => [c]
  | c :: d :: r =>
    if c = '曇' ∧ d = 'り' then 'く' :: 'も' :: 'り' :: replKumori r
    else c :: replKumori (d :: r)

/-- Model of t.replace("曇", "くもり") (line 55): replace each 曇 with くもり. -/
def replKumo : List Char → List Char
  | [] => []
  | c :: r => if c = '曇' then 'く' :: 'も' :: 'り' :: replKumo r else c :: replKumo r

/-- The canonicalized scan text t of normalize_weather_text (lines 52-55):
full-width spaces replaced, surrounding whitespace stripped, and the 曇
spelling variants rewritten to くもり. -/
def canon (raw : List Char) : List Char :=
  replKumo (replKumori (pyStrip (replFw raw)))

/-- Model of Python str.find for a nonempty pattern: the character index of
the first occurrence, or none when the pattern does not occur. -/
def pyFind (pat : List Char) : List Char → Option Nat
  | [] => if pat.isPrefixOf ([] : List Char) then some 0 else none
  | c :: r =>
    if pat.isPrefixOf (c :: r) then some 0
    else (pyFind pat r).map (· + 1)

/-- The keyword list of normalize_weather_text (line 57). -/
def keywords : List (List Char) := [strL "晴れ", strL "くもり", strL "雨", strL "雪"]

/-- The positions list of normalize_weather_text (lines 64-68) before
sorting: for each keyword in order, its first-occurrence index paired with
the keyword, kept only when the keyword occurs. -/
def positionsOf (t : List Char) : List (Nat × List Char) :=
  keywords.filterMap (fun k => (pyFind k t).map (fun i => (i, k)))

/-- Lexicographic comparison of character lists by code point, the order
Python uses to compare strings. -/
def clLe : List Char → List Char → Bool
  | [], _ => true
  | _ :: _, [] => false
  | a :: as, b :: bs =>
    if a.toNat < b.toNat then true
    else if b.toNat < a.toNat then false
    else clLe as bs

/-- Comparison of (index, keyword) pairs as Python compares tuples:
by index, with the keyword string breaking ties. -/
def posLe (p q : Nat × List Char) : Bool :=
  if p.1 < q.1 then true
  else if q.1 < p.1 then false
  else clLe p.2 q.2

/-- The pair ordering as a relation, for use with insertion sort. -/
def posR (p q : Nat × List Char) : Prop := posLe p q = true

instance : DecidableRel posR := fun p q => by
  unfold posR; infer_instance

/-- Model of positions.sort() (line 69). -/
def sortPositions (t : List Char) : List (Nat × List Char) :=
  List.insertionSort posR (positionsOf t)

/-- One step of the found-list construction (lines 71-73): append the
keyword unless it equals the most recently appended one. -/
def dedupStep (acc : List (List Char)) (k : List Char) : List (List Char) :=
  if acc.getLast? = some k then acc else acc ++ [k]

/-- The found list of normalize_weather_text (lines 58-73): walk the sorted
positions, collapsing equal adjacent keywords. -/
def foundList (t : List Char) : List (List Char) :=
  (sortPositions t).foldl (fun acc p => dedupStep acc p.2) []

/-- Model of normalize_weather_text (lines 40-82): condense a weather
sentence to the form A or AのちB, falling back to the stripped input when no
keyword occurs. -/
def normalize_weather_text (raw : List Char) : List Char :=
  match foundList (canon raw) with
  | [] => pyStrip raw
  | [a] => a
  | a :: b :: _ => a ++ strL "のち" ++ b

/-- Number of occurrences (counted at every start index) of a pattern in
a text; used to state repeated-keyword hypotheses. -/
def countOcc (pat t : List Char) : Nat :=
  (List.range (t.length + 1)).countP (fun i => pat.isPrefixOf (t.drop i))

/-- Model of weather_to_emoji (lines 26-38): first-match substring
containment in the order 晴れ, くもり, 雨, 雪, with 🌤️ as fallback. -/
def weather_to_emoji (m : List Char) : List Char :=
  if (pyFind (strL "晴れ") m).isSome then strL "☀️"
  else if (pyFind (strL "くもり") m).isSome then strL "☁️"
  else if (pyFind (strL "雨") m).isSome then strL "🌧️"
  else if (pyFind (strL "雪") m).isSome then strL "❄️"
  else strL "🌤️"

/-- Model of simple_weather.split("のち")[0] (line 94): the portion of the
summary before the first occurrence of のち. -/
def headBeforeNochi : List Char → List Char
  | [] => []
  | [c] => [c]
  | c :: d :: r => if c = 'の' ∧ d = 'ち' then [] else c :: headBeforeNochi (d :: r)

/-- The emoji chosen by build_message (lines 94-95): weather_to_emoji
applied to the part of the normalized summary before のち. -/
def emojiOfSummary (simple : List Char) : List Char :=
  weather_to_emoji (headBeforeNochi simple)

/-- An entry of the areas list of a time-series block. The name field is
the nested area.name used by pick_area; weathers, pops and temps are the
parallel arrays (pops and temps are read with .get and default to []). -/
structure AreaObj where
  name : List Char
  weathers : List (List Char)
  pops : List (List Char)
  temps : List (List Char)
deriving DecidableEq

/-- One time-series block of the forecast document. -/
structure TSBlock where
  areas : List AreaObj
deriving DecidableEq

/-- The fields of one forecast document that build_message reads. The two
metadata fields are optional because the code reads them with .get and
substitutes defaults. -/
structure ForecastDoc where
  publishingOffice : Option (List Char)
  reportDatetime : Option (List Char)
  timeSeries : List TSBlock
deriving DecidableEq

/-- The environment-sourced configuration (lines 7-12): the two target area
names and the two push credentials, which may be absent. -/
structure Config where
  forecastAreaName : List Char
  tempAreaName : List Char
  token : Option (List Char)
  gid : Option (List Char)
deriving DecidableEq

/-- The error kinds the pipeline can raise: an out-of-range index
(IndexError), a failed area lookup (the ValueError of pick_area, line 24),
the ValueError of int() on a digit-class but non-decimal string (line 101),
and missing credentials (the RuntimeError of send_line_to_group, line 150). -/
inductive PipeErr where
  | indexError
  | lookupError (name : List Char)
  | valueError
  | configError
deriving DecidableEq

/-- The push request of send_line_to_group (lines 157-162): recipient (the
payload field named to) and message text. A pipeline run produces this value
exactly when a push HTTP call is attempted, so an error result means no push
happened. -/
structure PushCall where
  dest : List Char
  text : List Char
deriving DecidableEq

/-- Model of a Python indexing read l[n], raising IndexError out of range. -/
def getIdx {α : Type} (l : List α) (n : Nat) : Except PipeErr α :=
  match l.get? n with
  | some x => Except.ok x
  | none => Except.error PipeErr.indexError

/-- Model of pick_area (lines 20-24): return the first area whose name
matches, or raise the lookup ValueError. -/
def pick_area (areas : List AreaObj) (name : List Char) : Except PipeErr AreaObj :=
  match areas.find? (fun a => a.name = name) with
  | some a => Except.ok a
  | none => Except.error (PipeErr.lookupError name)

/-- Truthiness of an optional string under Python not: an unset or empty
value is falsy. -/
def pyFalsy : Option (List Char) → Bool
  | none => true
  | some [] => true
  | some (_ :: _) => false

/-- Sequencing of fallible steps: propagate the first raised error, exactly
as a Python exception aborts the remainder of build_message. -/
def exBind {α β : Type} (x : Except PipeErr α) (f : α → Except PipeErr β) :
    Except PipeErr β :=
  match x with
  | Except.error e => Except.error e
  | Except.ok v => f v

/-- First code points of the aligned ten-character runs of Unicode decimal
digits (general category Nd, Unicode 14.0): the strings Python int() accepts
after an isdigit() check are exactly those whose characters lie in one of
these runs, with digit value given by the offset into the run. -/
def pyDecimalStarts : List Nat :=
  [48, 1632, 1776, 1984, 2406, 2534, 2662, 2790, 2918, 3046,
   3174, 3302, 3430, 3558, 3664, 3792, 3872, 4160, 4240, 6112,
   6160, 6470, 6608, 6784, 6800, 6992, 7088, 7232, 7248, 42528,
   43216, 43264, 43472, 43504, 43600, 44016, 65296, 66720, 68912, 69734,
   69872, 69942, 70096, 70384, 70736, 70864, 71248, 71360, 71472, 71904,
   72016, 72784, 73040, 73120, 92768, 92864, 93008, 120782, 120792, 120802,
   120812, 120822, 123200, 123632, 125264, 130032]

/-- Code points whose character passes Python str.isdigit() without being a
decimal digit (Numeric_Type=Digit, Unicode 14.0), such as superscripts and
circled digits: int() raises ValueError on any string containing one. -/
def pyDigitExtra : List Nat :=
  [178, 179, 185, 4969, 4970, 4971, 4972, 4973, 4974, 4975,
   4976, 4977, 6618, 8304, 8308, 8309, 8310, 8311, 8312, 8313,
   8320, 8321, 8322, 8323, 8324, 8325, 8326, 8327, 8328, 8329,
   9312, 9313, 9314, 9315, 9316, 9317, 9318, 9319, 9320, 9332,
   9333, 9334, 9335, 9336, 9337, 9338, 9339, 9340, 9352, 9353,
   9354, 9355, 9356, 9357, 9358, 9359, 9360, 9450, 9461, 9462,
   9463, 9464, 9465, 9466, 9467, 9468, 9469, 9471, 10102, 10103,
   10104, 10105, 10106, 10107, 10108, 10109, 10110, 10112, 10113, 10114,
   10115, 10116, 10117, 10118, 10119, 10120, 10122, 10123, 10124, 10125,
   10126, 10127, 10128, 10129, 10130, 68160, 68161, 68162, 68163, 69216,
   69217, 69218, 69219, 69220, 69221, 69222, 69223, 69224, 69714, 69715,
   69716, 69717, 69718, 69719, 69720, 69721, 69722, 127232, 127233, 127234,
   127235, 127236, 127237, 127238, 127239, 127240, 127241, 127242]

/-- Decimal value of a Unicode decimal-digit character, none otherwise. -/
def pyDecimalVal (c : Char) : Option Nat :=
  (pyDecimalStarts.find? (fun s => s ≤ c.toNat && c.toNat < s + 10)).map
    (fun s => c.toNat - s)

/-- Model of Python str.isdigit for a single character: a decimal digit or a
digit-class character such as ² . -/
def pyIsDigit (c : Char) : Bool :=
  (pyDecimalVal c).isSome || pyDigitExtra.contains c.toNat

/-- Model of Python int() on a string that already passed isdigit(): the
conversion succeeds exactly when every character is a decimal digit, reading
the digits by their Unicode decimal values; otherwise int() raises. -/
def pyIntOfDigits (p : List Char) : Option Nat :=
  p.foldl
    (fun acc c =>
      match acc, pyDecimalVal c with
      | some n, some d => some (10 * n + d)
      | _, _ => none)
    (some 0)

/-- The integer precipitation values of build_message (line 101), evaluated
left to right as the list comprehension does: entries failing isdigit() are
skipped, entries passing it are converted with int(), and a digit-class
entry that int() cannot parse raises ValueError, aborting the whole
composition. -/
def popValuesE : List (List Char) → Except PipeErr (List Nat)
  | [] => Except.ok []
  | p :: rest =>
    if !p.isEmpty && p.all pyIsDigit then
      match pyIntOfDigits p with
      | some n => exBind (popValuesE rest) fun vs => Except.ok (n :: vs)
      | none => Except.error PipeErr.valueError
    else popValuesE rest

/-- The remainder of the string after the first T, if any. -/
def afterFirstT : List Char → Option (List Char)
  | [] => none
  | c :: r => if c = 'T' then some r else afterFirstT r

/-- Model of the report-time extraction (lines 123-127):
report_dt.split("T")[1][:5], with the raw string as fallback when there is
no T (the IndexError branch of the try block). -/
def reportTimeOf (reportDt : List Char) : List Char :=
  match afterFirstT reportDt with
  | some seg => (seg.takeWhile (fun c => c ≠ 'T')).take 5
  | none => reportDt

/-- Model of build_message (lines 84-143) up to the final join: the list of
message lines, or the first error raised, with the reads performed in the
order of the source. The current-date string of lines 111-120 reads the
system clock, so it is a parameter. -/
def build_message_lines (cfg : Config) (jma : List ForecastDoc) (dateStr : List Char) :
    Except PipeErr (List (List Char)) :=
  exBind (getIdx jma 0) fun data0 =>
  exBind (getIdx data0.timeSeries 0) fun tsWeather =>
  exBind (pick_area tsWeather.areas cfg.forecastAreaName) fun areaWeather =>
  exBind (getIdx areaWeather.weathers 0) fun todayWeatherText =>
  exBind (getIdx data0.timeSeries 1) fun tsPop =>
  exBind (pick_area tsPop.areas cfg.forecastAreaName) fun areaPop =>
  exBind (popValuesE areaPop.pops) fun popVals =>
  exBind (getIdx data0.timeSeries 2) fun tsTemp =>
  exBind (pick_area tsTemp.areas cfg.tempAreaName) fun areaTemp =>
  let publishingOffice := data0.publishingOffice.getD (strL "気象庁")
  let reportDt := data0.reportDatetime.getD []
  let simpleWeather := normalize_weather_text todayWeatherText
  let emoji := emojiOfSummary simpleWeather
  let popMax := popVals.max?
  let tempMin := areaTemp.temps.get? 0
  let tempMax := areaTemp.temps.get? 1
  let reportTime := reportTimeOf reportDt
  let hdr := [emoji ++ strL " 福岡市 " ++ dateStr, strL "天気：" ++ simpleWeather, []]
  let tempSection :=
    match tempMin, tempMax with
    | some a, some b => [strL "気温：" ++ a ++ strL "℃ / " ++ b ++ strL "℃"]
    | _, _ => []
  let popSection :=
    match popMax with
    | some m => [strL "降水：最大 " ++ (Nat.repr m).toList ++ strL "%（今日）"]
    | none => []
  Except.ok (hdr ++ tempSection ++ popSection ++
    [[], strL "発表：" ++ reportTime ++ strL "（" ++ publishingOffice ++ strL "）"])

/-- Model of build_message (line 143): the lines joined with newlines. -/
def build_message (cfg : Config) (jma : List ForecastDoc) (dateStr : List Char) :
    Except PipeErr (List Char) :=
  exBind (build_message_lines cfg jma dateStr) fun ls =>
    Except.ok (List.intercalate (strL "\n") ls)

/-- Model of send_line_to_group (lines 145-163): raise the configuration
RuntimeError when either credential is unset or empty, before the push
request is formed; otherwise produce the push request. -/
def send_line_to_group (cfg : Config) (message : List Char) : Except PipeErr PushCall :=
  if pyFalsy cfg.token || pyFalsy cfg.gid then Except.error PipeErr.configError
  else Except.ok { dest := cfg.gid.getD [], text := message }

/-- Model of main (lines 165-168) after the fetch: compose the message from
the fetched document and push it. The value in the ok branch is the push
request; an error result aborts before any push. -/
def mainPipeline (cfg : Config) (jma : List ForecastDoc) (dateStr : List Char) :
    Except PipeErr PushCall :=
  exBind (build_message cfg jma dateStr) fun msg =>
    send_line_to_group cfg msg

/-- The default configuration of lines 7-9 with both credentials present. -/
def cfgDefault : Config :=
  { forecastAreaName := strL "福岡地方", tempAreaName := strL "福岡",
    token := some (strL "token"), gid := some (strL "Cgid") }

/-- A well-formed forecast document with the precipitation array left as a
parameter; weather text and temperatures are fixed. -/
def docPops (pops : List (List Char)) : ForecastDoc :=
  { publishingOffice := some (strL "福岡管区気象台"),
    reportDatetime := some (strL "2026-02-20T05:00:00+09:00"),
    timeSeries := [
      { areas := [{ name := strL "福岡地方", weathers := [strL "晴れ"],
                    pops := [], temps := [] }] },
      { areas := [{ name := strL "福岡地方", weathers := [], pops := pops,
                    temps := [] }] },
      { areas := [{ name := strL "福岡", weathers := [], pops := [],
                    temps := [strL "18", strL "26"] }] }] }

/-- A well-formed forecast document with the temperature array left as a
parameter; weather text and precipitation are fixed. -/
def docTemps (temps : List (List Char)) : ForecastDoc :=
  { publishingOffice := some (strL "福岡管区気象台"),
    reportDatetime := some (strL "2026-02-20T05:00:00+09:00"),
    timeSeries := [
      { areas := [{ name := strL "福岡地方", weathers := [strL "雨"],
                    pops := [], temps := [] }] },
      { areas := [{ name := strL "福岡地方", weathers := [], pops := [strL "20"],
                    temps := [] }] },
      { areas := [{ name := strL "福岡", weathers := [], pops := [],
                    temps := temps }] }] }

/-- A well-formed forecast document whose publishingOffice and
reportDatetime fields are both absent. -/
def docNoMeta : ForecastDoc :=
  { publishingOffice := none,
    reportDatetime := none,
    timeSeries := [
      { areas := [{ name := strL "福岡地方", weathers := [strL "晴れ"],
                    pops := [], temps := [] }] },
      { areas := [{ name := strL "福岡地方", weathers := [], pops := [strL "30"],
                    temps := [] }] },
      { areas := [{ name := strL "福岡", weathers := [], pops := [],
                    temps := [strL "18", strL "26"] }] }] }

/-- A forecast document with three blocks whose first block does not carry
the default target forecast area name. -/
def docMissingArea : ForecastDoc :=
  { publishingOffice := some (strL "福岡管区気象台"),
    reportDatetime := some (strL "2026-02-20T05:00:00+09:00"),
    timeSeries := [
      { areas := [{ name := strL "博多", weathers := [strL "晴れ"],
                    pops := [], temps := [] }] },
      { areas := [{ name := strL "福岡地方", weathers := [], pops := [strL "30"],
                    temps := [] }] },
      { areas := [{ name := strL "福岡", weathers := [], pops := [],
                    temps := [strL "18", strL "26"] }] }] }

/-- A well-formed forecast document with the report timestamp left as a
parameter and the office name absent. -/
def docWithRd (rd : List Char) : ForecastDoc :=
  { publishingOffice := none,
    reportDatetime := some rd,
    timeSeries := [
      { areas := [{ name := strL "福岡地方", weathers := [strL "晴れ"],
                    pops := [], temps := [] }] },
      { areas := [{ name := strL "福岡地方", weathers := [], pops := [strL "30"],
                    temps := [] }] },
      { areas := [{ name := strL "福岡", weathers := [], pops := [],
                    temps := [strL "18", strL "26"] }] }] }

theorem headBeforeNochi_cons_ne (c : Char) (x : List Char) (h : c ≠ 'の') :
    headBeforeNochi (c :: x) = c :: headBeforeNochi x := by
  cases x with
  | nil => rfl
  | cons d r => simp [headBeforeNochi, h]

theorem reportTimeOf_no_T (rd : List Char) (h : 'T' ∉ rd) : reportTimeOf rd = rd := by
  have ha : afterFirstT rd = none := by
    induction rd with
    | nil => rfl
    | cons c r ih =>
      simp only [afterFirstT]
      rw [if_neg, ih]
      · intro hc; exact h (List.mem_cons_of_mem _ hc)
      · intro hc; exact h (hc ▸ List.mem_cons_self c r)
  simp [reportTimeOf, ha]

theorem pick_area_not_found (areas : List AreaObj) (name : List Char)
    (h : name ∉ areas.map AreaObj.name) :
    pick_area areas name = Except.error (PipeErr.lookupError name) := by
  have hf : areas.find? (fun a => a.name = name) = none := by
    rw [List.find?_eq_none]
    intro a ha
    simp only [decide_eq_true_eq]
    intro he
    exact h (he ▸ List.mem_map_of_mem AreaObj.name ha)
  simp [pick_area, hf]

/-- C2: an input in which none of the four category keywords occurs after
full-width-space replacement and 曇 canonicalization is returned by
normalize_weather_text as the original string with surrounding whitespace
stripped and otherwise unchanged. -/
theorem C2_no_keyword_returns_stripped_input (s : List Char)
    (h : ∀ k ∈ keywords, pyFind k (canon s) = none) :
    normalize_weather_text s = pyStrip s := by
  have h1 := h (strL "晴れ") (by simp [keywords])
  have h2 := h (strL "くもり") (by simp [keywords])
  have h3 := h (strL "雨") (by simp [keywords])
  have h4 := h (strL "雪") (by simp [keywords])
  have hp : positionsOf (canon s) = [] := by
    simp [positionsOf, keywords, h1, h2, h3, h4]
  have hf : foundList (canon s) = [] := by
    simp [foundList, sortPositions, hp, List.insertionSort]
  simp [normalize_weather_text, hf]

theorem C2_no_keyword_returns_stripped_input_witness :
    (∀ k ∈ keywords, pyFind k (canon (strL "  本日は穏やか　")) = none) ∧
    normalize_weather_text (strL "  本日は穏やか　") = pyStrip (strL "  本日は穏やか　") :=
  ⟨by decide, C2_no_keyword_returns_stripped_input (strL "  本日は穏やか　") (by decide)⟩

/-- C5 counterexample: the claim as stated is false of the program. The
entry ² passes isdigit() but is not a string of decimal digits, so the
claim requires it to be dropped and the message composed without a
precipitation line; the program instead aborts composition with the
ValueError of int(), and no message is produced at all. -/
theorem C5_precipitation_claim_counterexample :
    build_message_lines cfgDefault [docPops [strL "²"]] (strL "2/20(金)") =
      Except.error PipeErr.valueError ∧
    ∀ ls, build_message_lines cfgDefault [docPops [strL "²"]] (strL "2/20(金)") ≠
      Except.ok ls := by
  refine ⟨rfl, ?_⟩
  intro ls h
  rw [show build_message_lines cfgDefault [docPops [strL "²"]] (strL "2/20(金)") =
      Except.error PipeErr.valueError from rfl] at h
  exact absurd h (by simp)

/-- C5 (amended): for every precipitation array, build_message converts the
entries that pass isdigit() with int(), evaluated left to right: decimal
digit strings (in any script, read by their Unicode digit values) are kept
and the maximum is reported in the 降水 line, absent when there is none;
but a digit-class entry that is not a decimal string, such as ², makes
int() raise ValueError and aborts composition instead of being dropped. The
all-ASCII examples of the claim and the two divergent inputs are included. -/
theorem C5_precipitation_max_line (pops : List (List Char)) :
    (build_message_lines cfgDefault [docPops pops] (strL "2/20(金)") =
      exBind (popValuesE pops) fun vals =>
        Except.ok ([strL "☀️ 福岡市 2/20(金)", strL "天気：晴れ", [],
          strL "気温：18℃ / 26℃"] ++
          (match vals.max? with
           | some m => [strL "降水：最大 " ++ (Nat.repr m).toList ++ strL "%（今日）"]
           | none => []) ++
          [[], strL "発表：05:00（福岡管区気象台）"])) ∧
    popValuesE [strL "10", [], strL "80", strL "30"] = Except.ok [10, 80, 30] ∧
    (popValuesE [strL "10", [], strL "80", strL "30"]).map List.max? =
      Except.ok (some 80) ∧
    (popValuesE [[], []]).map List.max? = Except.ok none ∧
    (popValuesE []).map List.max? = Except.ok none ∧
    popValuesE [strL "１０"] = Except.ok [10] ∧
    popValuesE [strL "²", strL "30"] = Except.error PipeErr.valueError :=
  ⟨rfl, rfl, rfl, rfl, rfl, rfl, rfl⟩

/-- C6: the temperature line appears in the composed message exactly when
the matched temperature array has at least two entries, showing the first
as minimum and the second as maximum; with fewer entries it is absent. -/
theorem C6_temperature_line_iff_two_entries (temps : List (List Char)) :
    build_message_lines cfgDefault [docTemps temps] (strL "2/20(金)") =
      Except.ok ([strL "🌧️ 福岡市 2/20(金)", strL "天気：雨", []] ++
        (match temps with
         | t0 :: t1 :: _ => [strL "気温：" ++ t0 ++ strL "℃ / " ++ t1 ++ strL "℃"]
         | _ => []) ++
        [strL "降水：最大 20%（今日）", [], strL "発表：05:00（福岡管区気象台）"]) := by
  match temps with
  | [] => rfl
  | [t0] => rfl
  | t0 :: t1 :: rest => rfl

/-- C7: the symbol is chosen from the portion of the normalized summary
before のち only, by substring containment in the priority order
晴れ, くもり, 雨, 雪, with 🌤️ when none is contained; a summary beginning
with 晴れ gets ☀️ regardless of what follows のち. -/
theorem C7_emoji_priority_on_main_part (simple : List Char) :
    ((pyFind (strL "晴れ") (headBeforeNochi simple)).isSome →
      emojiOfSummary simple = strL "☀️") ∧
    (¬(pyFind (strL "晴れ") (headBeforeNochi simple)).isSome →
      (pyFind (strL "くもり") (headBeforeNochi simple)).isSome →
      emojiOfSummary simple = strL "☁️") ∧
    (¬(pyFind (strL "晴れ") (headBeforeNochi simple)).isSome →
      ¬(pyFind (strL "くもり") (headBeforeNochi simple)).isSome →
      (pyFind (strL "雨") (headBeforeNochi simple)).isSome →
      emojiOfSummary simple = strL "🌧️") ∧
    (¬(pyFind (strL "晴れ") (headBeforeNochi simple)).isSome →
      ¬(pyFind (strL "くもり") (headBeforeNochi simple)).isSome →
      ¬(pyFind (strL "雨") (headBeforeNochi simple)).isSome →
      (pyFind (strL "雪") (headBeforeNochi simple)).isSome →
      emojiOfSummary simple = strL "❄️") ∧
    ((∀ k ∈ keywords, pyFind k (headBeforeNochi simple) = none) →
      emojiOfSummary simple = strL "🌤️") ∧
    (∀ rest, simple = strL "晴れ" ++ rest → emojiOfSummary simple = strL "☀️") := by
  refine ⟨?_, ?_, ?_, ?_, ?_, ?_⟩
  · intro h; simp [emojiOfSummary, weather_to_emoji, h]
  · intro h1 h2; simp [emojiOfSummary, weather_to_emoji, h1, h2]
  · intro h1 h2 h3; simp [emojiOfSummary, weather_to_emoji, h1, h2, h3]
  · intro h1 h2 h3 h4; simp [emojiOfSummary, weather_to_emoji, h1, h2, h3, h4]
  · intro h
    have h1 := h (strL "晴れ") (by simp [keywords])
    have h2 := h (strL "くもり") (by simp [keywords])
    have h3 := h (strL "雨") (by simp [keywords])
    have h4 := h (strL "雪") (by simp [keywords])
    simp [emojiOfSummary, weather_to_emoji, h1, h2, h3, h4]
  · intro rest hs
    subst hs
    have h1 : headBeforeNochi (strL "晴れ" ++ rest) = '晴' :: 'れ' :: headBeforeNochi rest := by
      show headBeforeNochi ('晴' :: 'れ' :: rest) = _
      rw [headBeforeNochi_cons_ne _ _ (by decide), headBeforeNochi_cons_ne _ _ (by decide)]
    have h2 : (pyFind (strL "晴れ") ('晴' :: 'れ' :: headBeforeNochi rest)).isSome = true := by
      simp [pyFind, strL, List.isPrefixOf]
    simp only [emojiOfSummary, weather_to_emoji, h1]
    simp [h2]

theorem C7_emoji_priority_on_main_part_witness :
    emojiOfSummary (strL "ぬのち晴れ") = strL "🌤️" ∧
    emojiOfSummary (strL "晴れのち雪") = strL "☀️" :=
  ⟨(C7_emoji_priority_on_main_part (strL "ぬのち晴れ")).2.2.2.2.1 (by decide),
   (C7_emoji_priority_on_main_part (strL "晴れのち雪")).2.2.2.2.2 (strL "のち雪") (by decide)⟩

/-- C8: when the configured target area name is absent from any of the
three consulted blocks of a forecast document with at least three
time-series blocks, the pipeline result is an error — so no push request is
produced — and in each case where composition reaches the failing lookup
(for the temperature block this includes the precipitation conversion of
line 101 succeeding, since it runs before the temperature lookup), the
error is specifically the lookup error for the missing name. -/
theorem C8_missing_area_aborts_without_push (cfg : Config) (d : ForecastDoc)
    (rest : List ForecastDoc) (b0 b1 b2 : TSBlock) (bs : List TSBlock)
    (dateStr : List Char) (hts : d.timeSeries = b0 :: b1 :: b2 :: bs) :
    ((cfg.forecastAreaName ∉ b0.areas.map AreaObj.name ∨
      cfg.forecastAreaName ∉ b1.areas.map AreaObj.name ∨
      cfg.tempAreaName ∉ b2.areas.map AreaObj.name) →
      ∃ e, mainPipeline cfg (d :: rest) dateStr = Except.error e) ∧
    (cfg.forecastAreaName ∉ b0.areas.map AreaObj.name →
      mainPipeline cfg (d :: rest) dateStr =
        Except.error (PipeErr.lookupError cfg.forecastAreaName)) ∧
    (∀ a0 w ws, pick_area b0.areas cfg.forecastAreaName = Except.ok a0 →
      a0.weathers = w :: ws →
      cfg.forecastAreaName ∉ b1.areas.map AreaObj.name →
      mainPipeline cfg (d :: rest) dateStr =
        Except.error (PipeErr.lookupError cfg.forecastAreaName)) ∧
    (∀ a0 w ws a1 vals, pick_area b0.areas cfg.forecastAreaName = Except.ok a0 →
      a0.weathers = w :: ws →
      pick_area b1.areas cfg.forecastAreaName = Except.ok a1 →
      popValuesE a1.pops = Except.ok vals →
      cfg.tempAreaName ∉ b2.areas.map AreaObj.name →
      mainPipeline cfg (d :: rest) dateStr =
        Except.error (PipeErr.lookupError cfg.tempAreaName)) := by
  refine ⟨?_, ?_, ?_, ?_⟩
  case refine_2 =>
    intro h0
    have hp := pick_area_not_found b0.areas cfg.forecastAreaName h0
    simp [mainPipeline, build_message, build_message_lines, getIdx, hts, hp, exBind]
  case refine_3 =>
    intro a0 w ws hp0 hw hb
    have hp1 := pick_area_not_found b1.areas cfg.forecastAreaName hb
    simp [mainPipeline, build_message, build_message_lines, getIdx, hts, hp0, hw, hp1, exBind]
  case refine_4 =>
    intro a0 w ws a1 vals hp0 hw hp1 hpv ht
    have hp2 := pick_area_not_found b2.areas cfg.tempAreaName ht
    simp [mainPipeline, build_message, build_message_lines, getIdx, hts, hp0, hw, hp1,
      hpv, hp2, exBind]
  case refine_1 =>
    intro h
    rcases h with h0 | hb | ht
    · refine ⟨PipeErr.lookupError cfg.forecastAreaName, ?_⟩
      have hp := pick_area_not_found b0.areas cfg.forecastAreaName h0
      simp [mainPipeline, build_message, build_message_lines, getIdx, hts, hp, exBind]
    · cases hp0 : pick_area b0.areas cfg.forecastAreaName with
      | error e =>
        refine ⟨e, ?_⟩
        simp [mainPipeline, build_message, build_message_lines, getIdx, hts, hp0, exBind]
      | ok a0 =>
        cases hw : a0.weathers with
        | nil =>
          refine ⟨PipeErr.indexError, ?_⟩
          simp [mainPipeline, build_message, build_message_lines, getIdx, hts, hp0, hw, exBind]
        | cons w ws =>
          refine ⟨PipeErr.lookupError cfg.forecastAreaName, ?_⟩
          have hp1 := pick_area_not_found b1.areas cfg.forecastAreaName hb
          simp [mainPipeline, build_message, build_message_lines, getIdx, hts, hp0, hw,
            hp1, exBind]
    · cases hp0 : pick_area b0.areas cfg.forecastAreaName with
      | error e =>
        refine ⟨e, ?_⟩
        simp [mainPipeline, build_message, build_message_lines, getIdx, hts, hp0, exBind]
      | ok a0 =>
        cases hw : a0.weathers with
        | nil =>
          refine ⟨PipeErr.indexError, ?_⟩
          simp [mainPipeline, build_message, build_message_lines, getIdx, hts, hp0, hw, exBind]
        | cons w ws =>
          cases hp1 : pick_area b1.areas cfg.forecastAreaName with
          | error e =>
            refine ⟨e, ?_⟩
            simp [mainPipeline, build_message, build_message_lines, getIdx, hts, hp0, hw,
              hp1, exBind]
          | ok a1 =>
            cases hpv : popValuesE a1.pops with
            | error e =>
              refine ⟨e, ?_⟩
              simp [mainPipeline, build_message, build_message_lines, getIdx, hts, hp0,
                hw, hp1, hpv, exBind]
            | ok vals =>
              refine ⟨PipeErr.lookupError cfg.tempAreaName, ?_⟩
              have hp2 := pick_area_not_found b2.areas cfg.tempAreaName ht
              simp [mainPipeline, build_message, build_message_lines, getIdx, hts, hp0,
                hw, hp1, hpv, hp2, exBind]

theorem C8_missing_area_aborts_without_push_witness :
    mainPipeline cfgDefault [docMissingArea] (strL "2/20(金)") =
      Except.error (PipeErr.lookupError (strL "福岡地方")) :=
  (C8_missing_area_aborts_without_push cfgDefault docMissingArea []
    { areas := [{ name := strL "博多", weathers := [strL "晴れ"], pops := [], temps := [] }] }
    { areas := [{ name := strL "福岡地方", weathers := [], pops := [strL "30"], temps := [] }] }
    { areas := [{ name := strL "福岡", weathers := [], pops := [], temps := [strL "18", strL "26"] }] }
    [] (strL "2/20(金)") rfl).2.1 (by decide)

/-- C9: when the messaging token or the recipient identifier is unset or
empty, send_line_to_group raises the configuration error, so no push
request value is produced, and the check applies to every message. -/
theorem C9_missing_credentials_config_error (cfg : Config) (msg : List Char)
    (h : pyFalsy cfg.token = true ∨ pyFalsy cfg.gid = true) :
    send_line_to_group cfg msg = Except.error PipeErr.configError := by
  unfold send_line_to_group
  rcases h with h | h <;> simp [h]

theorem C9_missing_credentials_config_error_witness :
    send_line_to_group
      { forecastAreaName := strL "福岡地方", tempAreaName := strL "福岡",
        token := none, gid := some (strL "Cgid") } (strL "hello") =
      Except.error PipeErr.configError :=
  C9_missing_credentials_config_error _ _ (Or.inl (by decide))

/-- C10: a document missing publishingOffice and reportDatetime still
composes completely, the footer substituting 気象庁 and the empty report
time; and a report timestamp with no T separator appears unmodified in the
footer. -/
theorem C10_metadata_defaults_and_raw_timestamp :
    (build_message_lines cfgDefault [docNoMeta] (strL "2/20(金)") =
      Except.ok [strL "☀️ 福岡市 2/20(金)", strL "天気：晴れ", [],
        strL "気温：18℃ / 26℃", strL "降水：最大 30%（今日）", [],
        strL "発表：（気象庁）"]) ∧
    (∀ rd, 'T' ∉ rd →
      build_message_lines cfgDefault [docWithRd rd] (strL "2/20(金)") =
        Except.ok [strL "☀️ 福岡市 2/20(金)", strL "天気：晴れ", [],
          strL "気温：18℃ / 26℃", strL "降水：最大 30%（今日）", [],
          strL "発表：" ++ rd ++ strL "（気象庁）"]) := by
  refine ⟨rfl, ?_⟩
  intro rd h
  have hrt : reportTimeOf rd = rd := reportTimeOf_no_T rd h
  show Except.ok ([strL "☀️ 福岡市 2/20(金)", strL "天気：晴れ", [],
        strL "気温：18℃ / 26℃", strL "降水：最大 30%（今日）"] ++
        [[], strL "発表：" ++ reportTimeOf rd ++ strL "（" ++ strL "気象庁" ++ strL "）"]) = _
  rw [hrt]
  simp [strL, List.append_assoc]

theorem C10_metadata_defaults_and_raw_timestamp_witness :
    build_message_lines cfgDefault [docWithRd (strL "20260220 0500")] (strL "2/20(金)") =
      Except.ok [strL "☀️ 福岡市 2/20(金)", strL "天気：晴れ", [],
        strL "気温：18℃ / 26℃", strL "降水：最大 30%（今日）", [],
        strL "発表：" ++ strL "20260220 0500" ++ strL "（気象庁）"] :=
  C10_metadata_defaults_and_raw_timestamp.2 (strL "20260220 0500") (by decide)


theorem pyIsSpace_fw : pyIsSpace '　' = true := by decide

theorem pyIsSpace_sp : pyIsSpace ' ' = true := by decide

theorem dropWhile_dropWhile (p : Char → Bool) (l : List Char) :
    (l.dropWhile p).dropWhile p = l.dropWhile p := by
  induction l with
  | nil => rfl
  | cons c r ih =>
    by_cases h : p c
    · simp [List.dropWhile_cons, h, ih]
    · simp [List.dropWhile_cons, h]

theorem pyStripLeft_idem (l : List Char) : pyStripLeft (pyStripLeft l) = pyStripLeft l :=
  dropWhile_dropWhile pyIsSpace l

theorem pyStripRight_idem (l : List Char) : pyStripRight (pyStripRight l) = pyStripRight l := by
  unfold pyStripRight
  rw [List.reverse_reverse, dropWhile_dropWhile]

theorem pyStripRight_isPrefixOf (l : List Char) : pyStripRight l <+: l := by
  unfold pyStripRight
  have h := List.dropWhile_suffix (l := l.reverse) pyIsSpace
  have h2 := List.reverse_prefix.mpr h
  simpa using h2

theorem dropWhile_eq_self_of_head (l : List Char) (p : Char → Bool)
    (h : ∀ c, l.head? = some c → p c = false) : l.dropWhile p = l := by
  cases l with
  | nil => rfl
  | cons c r => simp [List.dropWhile_cons, h c rfl]

theorem head_not_space_of_stripLeft_self (l : List Char) (c : Char)
    (h : pyStripLeft l = l) (hc : l.head? = some c) : pyIsSpace c = false := by
  cases l with
  | nil => simp at hc
  | cons d r =>
    simp only [List.head?_cons, Option.some_inj] at hc
    subst hc
    by_cases hp : pyIsSpace d
    · exfalso
      have h2 : pyStripLeft (d :: r) = pyStripLeft r := by
        simp [pyStripLeft, List.dropWhile_cons, hp]
      rw [h2] at h
      have h3 : (List.dropWhile pyIsSpace r).length ≤ r.length :=
        (List.dropWhile_suffix pyIsSpace).length_le
      have h4 : (pyStripLeft r).length = (d :: r).length := by rw [h]
      simp only [pyStripLeft] at h4
      simp [List.length_cons] at h4
      omega
    · simpa using hp

theorem stripLeft_stripRight_of_self (m : List Char) (h : pyStripLeft m = m) :
    pyStripLeft (pyStripRight m) = pyStripRight m := by
  cases hsr : pyStripRight m with
  | nil => rfl
  | cons c y =>
    apply dropWhile_eq_self_of_head
    intro d hd
    have hpre : pyStripRight m <+: m := pyStripRight_isPrefixOf m
    rw [hsr] at hpre
    obtain ⟨t, ht⟩ := hpre
    have hm : m.head? = some c := by rw [← ht]; rfl
    simp only [List.head?_cons, Option.some_inj] at hd
    subst hd
    exact head_not_space_of_stripLeft_self m c h hm

theorem pyStrip_idem (l : List Char) : pyStrip (pyStrip l) = pyStrip l := by
  unfold pyStrip
  rw [stripLeft_stripRight_of_self (pyStripLeft l) (pyStripLeft_idem l), pyStripRight_idem]

theorem pyIsSpace_fwsub (c : Char) :
    pyIsSpace (if c = '　' then ' ' else c) = pyIsSpace c := by
  by_cases h : c = '　'
  · simp [h, pyIsSpace_fw, pyIsSpace_sp]
  · simp [h]

theorem replFw_append (a b : List Char) : replFw (a ++ b) = replFw a ++ replFw b := by
  induction a with
  | nil => rfl
  | cons c r ih => simp [replFw, ih]

theorem replFw_reverse (l : List Char) : replFw l.reverse = (replFw l).reverse := by
  induction l with
  | nil => rfl
  | cons c r ih => simp [replFw, replFw_append, ih]

theorem dropWhile_replFw (l : List Char) :
    List.dropWhile pyIsSpace (replFw l) = replFw (List.dropWhile pyIsSpace l) := by
  induction l with
  | nil => rfl
  | cons c r ih =>
    by_cases h : pyIsSpace c
    · have h2 : pyIsSpace (if c = '　' then ' ' else c) = true := by
        rw [pyIsSpace_fwsub]; exact h
      simp [replFw, List.dropWhile_cons, h, h2] at ih ⊢
      exact ih
    · have h2 : pyIsSpace (if c = '　' then ' ' else c) = false := by
        rw [pyIsSpace_fwsub]; simpa using h
      simp [replFw, List.dropWhile_cons, h, h2]

theorem pyStrip_replFw (l : List Char) : pyStrip (replFw l) = replFw (pyStrip l) := by
  simp only [pyStrip, pyStripRight, pyStripLeft]
  rw [dropWhile_replFw, ← replFw_reverse, dropWhile_replFw, ← replFw_reverse]

theorem canon_pyStrip (s : List Char) : canon (pyStrip s) = canon s := by
  unfold canon
  rw [pyStrip_replFw, pyStrip_idem, ← pyStrip_replFw]


theorem pyFind_some_startsWith (pat l : List Char) (i : Nat) (h : pyFind pat l = some i) :
    pat.isPrefixOf (l.drop i) = true := by
  induction l generalizing i with
  | nil =>
    by_cases hp : pat.isPrefixOf ([] : List Char)
    · simp only [pyFind, hp, if_true, Option.some_inj] at h
      subst h
      simpa using hp
    · simp [pyFind, hp] at h
  | cons c r ih =>
    by_cases hp : pat.isPrefixOf (c :: r)
    · simp only [pyFind, hp, if_true, Option.some_inj] at h
      subst h
      simpa using hp
    · have hrec : pyFind pat (c :: r) = (pyFind pat r).map (· + 1) := by
        simp [pyFind, hp]
      rw [hrec] at h
      cases hf : pyFind pat r with
      | none => rw [hf] at h; simp at h
      | some j =>
        rw [hf] at h
        simp only [Option.map_some'] at h
        obtain rfl : j + 1 = i := by injection h
        simpa using ih j hf

theorem pyFind_isSome_of_prefix_drop (pat l : List Char) (i : Nat) (hne : pat ≠ [])
    (h : pat.isPrefixOf (l.drop i) = true) : (pyFind pat l).isSome = true := by
  induction l generalizing i with
  | nil =>
    simp only [List.drop_nil] at h
    exact absurd (List.prefix_nil.mp (List.isPrefixOf_iff_prefix.mp h)) hne
  | cons c r ih =>
    by_cases hp : pat.isPrefixOf (c :: r)
    · simp [pyFind, hp]
    · cases i with
      | zero => exact absurd h hp
      | succ j =>
        have hs := ih j (by simpa using h)
        simp [pyFind, hp, hs]

theorem pyFind_isSome_of_infix (pat u v l : List Char) (hne : pat ≠ [])
    (h : l = u ++ pat ++ v) : (pyFind pat l).isSome = true := by
  apply pyFind_isSome_of_prefix_drop pat l u.length hne
  have hd : l.drop u.length = pat ++ v := by
    rw [h, List.append_assoc, List.drop_left]
  rw [hd]
  exact List.isPrefixOf_iff_prefix.mpr (List.prefix_append pat v)

theorem mem_positionsOf (t : List Char) (i : Nat) (k : List Char) :
    (i, k) ∈ positionsOf t ↔ k ∈ keywords ∧ pyFind k t = some i := by
  simp only [positionsOf, List.mem_filterMap, Option.map_eq_some']
  constructor
  · rintro ⟨a, ha, j, hj, heq⟩
    rw [Prod.mk.injEq] at heq
    obtain ⟨rfl, rfl⟩ := heq
    exact ⟨ha, hj⟩
  · rintro ⟨hk, hf⟩
    exact ⟨k, hk, i, hf, rfl⟩

theorem filterMap_guard_sublist {α : Type} (p : α → Bool) (l : List α) :
    List.Sublist (l.filterMap (fun x => if p x then some x else none)) l := by
  induction l with
  | nil => simp
  | cons x xs ih =>
    by_cases h : p x
    · simpa [List.filterMap_cons, h] using ih.cons₂ x
    · simpa [List.filterMap_cons, h] using ih.cons x

theorem keywords_nodup : keywords.Nodup := by decide

theorem snds_positions_sublist (t : List Char) :
    List.Sublist ((positionsOf t).map Prod.snd) keywords := by
  unfold positionsOf
  rw [List.map_filterMap]
  have hfn : ∀ k : List Char, ((pyFind k t).map (fun i => (i, k))).map Prod.snd =
      if (pyFind k t).isSome then some k else none := by
    intro k; cases hf : pyFind k t <;> simp [hf]
  simp only [hfn]
  exact filterMap_guard_sublist _ keywords

theorem snds_positions_nodup (t : List Char) :
    ((positionsOf t).map Prod.snd).Nodup :=
  (snds_positions_sublist t).nodup keywords_nodup

theorem positions_nodup (t : List Char) : (positionsOf t).Nodup :=
  List.Nodup.of_map Prod.snd (snds_positions_nodup t)

theorem clLe_total (a : List Char) : ∀ b, clLe a b = true ∨ clLe b a = true := by
  induction a with
  | nil => intro b; left; simp [clLe]
  | cons x as ih =>
    intro b
    cases b with
    | nil => right; simp [clLe]
    | cons y bs =>
      rcases Nat.lt_trichotomy x.toNat y.toNat with h | h | h
      · left; simp [clLe, h]
      · have h1 : ¬ x.toNat < y.toNat := by omega
        have h2 : ¬ y.toNat < x.toNat := by omega
        rcases ih bs with h3 | h3
        · left; simp [clLe, h1, h2, h3]
        · right; simp [clLe, h1, h2, h3]
      · right; simp [clLe, h]

theorem clLe_trans (a : List Char) : ∀ b c, clLe a b = true → clLe b c = true →
    clLe a c = true := by
  induction a with
  | nil => intro b c _ _; simp [clLe]
  | cons x as ih =>
    intro b c hab hbc
    cases b with
    | nil => simp [clLe] at hab
    | cons y bs =>
      cases c with
      | nil => simp [clLe] at hbc
      | cons z cs =>
        simp only [clLe] at hab hbc ⊢
        split_ifs at hab hbc ⊢ with h1 h2 h3 h4 h5 h6
        all_goals try rfl
        all_goals try omega
        all_goals try exact hab
        all_goals try exact hbc
        · exact ih bs cs hab hbc

theorem posLe_total (p q : Nat × List Char) : posLe p q = true ∨ posLe q p = true := by
  unfold posLe
  rcases Nat.lt_trichotomy p.1 q.1 with h | h | h
  · left; simp [h]
  · have h1 : ¬ p.1 < q.1 := by omega
    have h2 : ¬ q.1 < p.1 := by omega
    rcases clLe_total p.2 q.2 with h3 | h3
    · left; simp [h1, h2, h3]
    · right; simp [h1, h2, h3]
  · right; simp [h]

theorem posLe_trans (p q r : Nat × List Char) (hpq : posLe p q = true)
    (hqr : posLe q r = true) : posLe p r = true := by
  unfold posLe at hpq hqr ⊢
  split_ifs at hpq hqr ⊢ with h1 h2 h3 h4 h5 h6
  all_goals try rfl
  all_goals try omega
  all_goals try exact hpq
  all_goals try exact hqr
  · exact clLe_trans p.2 q.2 r.2 hpq hqr

instance : IsTotal (Nat × List Char) posR := ⟨fun a b => posLe_total a b⟩

instance : IsTrans (Nat × List Char) posR := ⟨fun a b c => posLe_trans a b c⟩

theorem sortPositions_perm (t : List Char) : List.Perm (sortPositions t) (positionsOf t) :=
  List.perm_insertionSort posR (positionsOf t)

theorem sortPositions_sorted (t : List Char) : List.Sorted posR (sortPositions t) :=
  List.sorted_insertionSort posR (positionsOf t)


theorem foldl_dedup_extends (l : List (List Char)) :
    ∀ acc, acc <+: List.foldl dedupStep acc l := by
  induction l with
  | nil => intro acc; exact List.prefix_rfl
  | cons k l2 ih =>
    intro acc
    have h1 : acc <+: dedupStep acc k := by
      unfold dedupStep
      split
      · exact List.prefix_rfl
      · exact ⟨[k], rfl⟩
    exact h1.trans (ih (dedupStep acc k))

theorem foldl_dedup_mem (l : List (List Char)) :
    ∀ acc x, x ∈ List.foldl dedupStep acc l → x ∈ acc ∨ x ∈ l := by
  induction l with
  | nil => intro acc x h; exact Or.inl h
  | cons k l2 ih =>
    intro acc x h
    rcases ih (dedupStep acc k) x h with h2 | h2
    · unfold dedupStep at h2
      split at h2
      · exact Or.inl h2
      · rcases List.mem_append.mp h2 with h3 | h3
        · exact Or.inl h3
        · simp at h3
          exact Or.inr (h3 ▸ List.mem_cons_self k l2)
    · exact Or.inr (List.mem_cons_of_mem k h2)

theorem foldl_dedup_chain (l : List (List Char)) :
    ∀ acc, List.Chain' (· ≠ ·) acc →
      List.Chain' (· ≠ ·) (List.foldl dedupStep acc l) := by
  induction l with
  | nil => intro acc h; exact h
  | cons k l2 ih =>
    intro acc h
    apply ih
    unfold dedupStep
    split
    · exact h
    · rename_i hlast
      rw [List.chain'_append]
      refine ⟨h, List.chain'_singleton k, ?_⟩
      intro x hx y hy
      simp at hy
      subst hy
      intro hxy
      exact hlast (hxy ▸ hx)

theorem foldl_dedup_eq_append (l : List (List Char)) :
    ∀ acc, List.Chain' (· ≠ ·) l →
      (∀ h0, l.head? = some h0 → acc.getLast? ≠ some h0) →
      List.foldl dedupStep acc l = acc ++ l := by
  induction l with
  | nil => intro acc _ _; simp
  | cons k l2 ih =>
    intro acc hch hhd
    have hg : acc.getLast? ≠ some k := hhd k rfl
    have hstep : dedupStep acc k = acc ++ [k] := by
      unfold dedupStep
      rw [if_neg hg]
    rw [List.foldl_cons, hstep]
    rw [ih (acc ++ [k]) (List.Chain'.tail hch) ?_]
    · rw [List.append_assoc]
      rfl
    · intro h0 hh0
      rw [List.getLast?_concat]
      intro he
      have hk0 : k = h0 := by injection he
      subst hk0
      rcases l2 with _ | ⟨m, l3⟩
      · simp at hh0
      · simp only [List.head?_cons, Option.some_inj] at hh0
        subst hh0
        exact (List.chain'_cons.mp hch).1 rfl

theorem foundList_eq_snds (t : List Char)
    (h : ((sortPositions t).map Prod.snd).Chain' (· ≠ ·)) :
    foundList t = (sortPositions t).map Prod.snd := by
  unfold foundList
  rw [← List.foldl_map Prod.snd dedupStep (sortPositions t) []]
  rw [foldl_dedup_eq_append _ [] h ?_]
  · rfl
  · intro h0 _
    simp

theorem snds_sort_nodup (t : List Char) :
    ((sortPositions t).map Prod.snd).Nodup := by
  have hperm : List.Perm ((sortPositions t).map Prod.snd) ((positionsOf t).map Prod.snd) :=
    (sortPositions_perm t).map Prod.snd
  exact hperm.nodup_iff.mpr (snds_positions_nodup t)

theorem foundList_eq_snds' (t : List Char) :
    foundList t = (sortPositions t).map Prod.snd :=
  foundList_eq_snds t ((snds_sort_nodup t).chain')

theorem foundList_ne_nil (t : List Char) (hp : positionsOf t ≠ []) :
    foundList t ≠ [] := by
  rw [foundList_eq_snds' t]
  intro h
  rw [List.map_eq_nil_iff] at h
  have hlen := (sortPositions_perm t).length_eq
  rw [h] at hlen
  simp only [List.length_nil] at hlen
  exact hp (List.eq_nil_of_length_eq_zero hlen.symm)


theorem foundList_mem_keywords (t : List Char) (x : List Char)
    (h : x ∈ foundList t) : x ∈ keywords := by
  rw [foundList_eq_snds'] at h
  have h2 : x ∈ (positionsOf t).map Prod.snd :=
    (((sortPositions_perm t).map Prod.snd).mem_iff).mp h
  exact (snds_positions_sublist t).subset h2

theorem foundList_chain (t : List Char) :
    List.Chain' (· ≠ ·) (foundList t) := by
  rw [foundList_eq_snds']
  exact (snds_sort_nodup t).chain'

/-- C3: normalize_weather_text is idempotent: normalizing any output again
returns it unchanged; in particular 晴れ and 晴れのちくもり are fixed points. -/
theorem C3_normalize_idempotent :
    (∀ s, normalize_weather_text (normalize_weather_text s) = normalize_weather_text s) ∧
    normalize_weather_text (strL "晴れ") = strL "晴れ" ∧
    normalize_weather_text (strL "晴れのちくもり") = strL "晴れのちくもり" := by
  refine ⟨?_, by decide, by decide⟩
  intro s
  rcases hf : foundList (canon s) with _ | ⟨a, _ | ⟨b, rest⟩⟩
  · have h1 : normalize_weather_text s = pyStrip s := by
      unfold normalize_weather_text
      rw [hf]
    rw [h1]
    have h2 : foundList (canon (pyStrip s)) = [] := by rw [canon_pyStrip, hf]
    unfold normalize_weather_text
    rw [h2, pyStrip_idem]
  · have h1 : normalize_weather_text s = a := by
      unfold normalize_weather_text
      rw [hf]
    rw [h1]
    have ha : a ∈ keywords := foundList_mem_keywords (canon s) a (by rw [hf]; simp)
    simp only [keywords, List.mem_cons, List.not_mem_nil, or_false] at ha
    rcases ha with rfl | rfl | rfl | rfl <;> decide
  · have h1 : normalize_weather_text s = a ++ strL "のち" ++ b := by
      unfold normalize_weather_text
      rw [hf]
    rw [h1]
    have ha : a ∈ keywords := foundList_mem_keywords (canon s) a (by rw [hf]; simp)
    have hb : b ∈ keywords := foundList_mem_keywords (canon s) b (by rw [hf]; simp)
    have hab : a ≠ b := by
      have hc := foundList_chain (canon s)
      rw [hf] at hc
      exact (List.chain'_cons.mp hc).1
    simp only [keywords, List.mem_cons, List.not_mem_nil, or_false] at ha hb
    rcases ha with rfl | rfl | rfl | rfl <;> rcases hb with rfl | rfl | rfl | rfl <;>
      first
      | exact absurd rfl hab
      | decide


theorem kw_find_inj (t : List Char) (a b : List Char) (i : Nat)
    (ha : a ∈ keywords) (hb : b ∈ keywords)
    (hfa : pyFind a t = some i) (hfb : pyFind b t = some i) : a = b := by
  have pa := List.isPrefixOf_iff_prefix.mp (pyFind_some_startsWith a t i hfa)
  have pb := List.isPrefixOf_iff_prefix.mp (pyFind_some_startsWith b t i hfb)
  have hpp := List.prefix_or_prefix_of_prefix pa pb
  simp only [keywords, List.mem_cons, List.not_mem_nil, or_false] at ha hb
  rcases ha with rfl | rfl | rfl | rfl <;> rcases hb with rfl | rfl | rfl | rfl <;>
    first
    | rfl
    | (rcases hpp with hx | hx <;> revert hx <;> decide)

theorem sort_pairwise_fst_lt (t : List Char) :
    (sortPositions t).Pairwise (fun p q => p.1 < q.1) := by
  have hs : (sortPositions t).Pairwise posR := sortPositions_sorted t
  have hn0 : ((sortPositions t).map Prod.snd).Pairwise (· ≠ ·) := snds_sort_nodup t
  have hn : (sortPositions t).Pairwise (fun p q : Nat × List Char => p.2 ≠ q.2) := by
    rw [List.pairwise_map] at hn0
    exact hn0
  refine (hs.and hn).imp_of_mem ?_
  intro p q hp hq hpq
  obtain ⟨hle, hne⟩ := hpq
  have hpm : (p.1, p.2) ∈ positionsOf t := by
    rw [Prod.mk.eta]
    exact ((sortPositions_perm t).mem_iff).mp hp
  have hqm : (q.1, q.2) ∈ positionsOf t := by
    rw [Prod.mk.eta]
    exact ((sortPositions_perm t).mem_iff).mp hq
  obtain ⟨hpk, hpf⟩ := (mem_positionsOf t p.1 p.2).mp hpm
  obtain ⟨hqk, hqf⟩ := (mem_positionsOf t q.1 q.2).mp hqm
  have hfst : p.1 ≠ q.1 := by
    intro he
    exact hne (kw_find_inj t p.2 q.2 p.1 hpk hqk hpf (he ▸ hqf))
  rcases Nat.lt_trichotomy p.1 q.1 with h1 | h1 | h1
  · exact h1
  · exact absurd h1 hfst
  · exfalso
    unfold posR posLe at hle
    rw [if_neg (by omega), if_pos h1] at hle
    exact absurd hle (by simp)

theorem two_mem_le_length {α : Type} (l : List α) (x y : α) (hxy : x ≠ y)
    (hx : x ∈ l) (hy : y ∈ l) : 2 ≤ l.length := by
  cases l with
  | nil => simp at hx
  | cons a l2 =>
    cases l2 with
    | nil =>
      simp only [List.mem_singleton] at hx hy
      exact absurd (hx.trans hy.symm) hxy
    | cons b l3 => simp [List.length_cons]

/-- C1: whenever two or more distinct category keywords occur in the
canonicalized input, normalize_weather_text returns exactly the two whose
first occurrences come earliest, in order of first occurrence, joined with
のち; every other occurring keyword occurs strictly later, so categories
beyond the second are dropped. -/
theorem C1_first_two_categories (s : List Char)
    (h : ∃ a ∈ keywords, ∃ b ∈ keywords, a ≠ b ∧
      (pyFind a (canon s)).isSome = true ∧ (pyFind b (canon s)).isSome = true) :
    ∃ a b ia ib, a ∈ keywords ∧ b ∈ keywords ∧ a ≠ b ∧
      pyFind a (canon s) = some ia ∧ pyFind b (canon s) = some ib ∧ ia < ib ∧
      normalize_weather_text s = a ++ strL "のち" ++ b ∧
      (∀ c ∈ keywords, ∀ ic, pyFind c (canon s) = some ic → c ≠ a →
        ia < ic ∧ (c ≠ b → ib < ic)) := by
  obtain ⟨a0, ha0, b0, hb0, hab0, hsa, hsb⟩ := h
  obtain ⟨ia0, hia0⟩ := Option.isSome_iff_exists.mp hsa
  obtain ⟨ib0, hib0⟩ := Option.isSome_iff_exists.mp hsb
  have hm1 : (ia0, a0) ∈ positionsOf (canon s) := (mem_positionsOf _ _ _).mpr ⟨ha0, hia0⟩
  have hm2 : (ib0, b0) ∈ positionsOf (canon s) := (mem_positionsOf _ _ _).mpr ⟨hb0, hib0⟩
  have hne12 : (ia0, a0) ≠ (ib0, b0) := by
    intro he
    apply hab0
    rw [Prod.mk.injEq] at he
    exact he.2
  have hlen : 2 ≤ (positionsOf (canon s)).length :=
    two_mem_le_length _ _ _ hne12 hm1 hm2
  have hlen2 : 2 ≤ (sortPositions (canon s)).length := by
    rw [(sortPositions_perm (canon s)).length_eq]
    exact hlen
  rcases hsort : sortPositions (canon s) with _ | ⟨p, _ | ⟨q, rest⟩⟩
  · rw [hsort] at hlen2; simp at hlen2
  · rw [hsort] at hlen2; simp at hlen2
  · have hfl : foundList (canon s) = p.2 :: q.2 :: rest.map Prod.snd := by
      rw [foundList_eq_snds', hsort]
      simp
    have hnorm : normalize_weather_text s = p.2 ++ strL "のち" ++ q.2 := by
      unfold normalize_weather_text
      rw [hfl]
    have hplt := sort_pairwise_fst_lt (canon s)
    rw [hsort] at hplt
    have hpq1 : p.1 < q.1 := (List.pairwise_cons.mp hplt).1 q (List.mem_cons_self _ _)
    have hpm : (p.1, p.2) ∈ positionsOf (canon s) := by
      rw [Prod.mk.eta]
      exact ((sortPositions_perm (canon s)).mem_iff).mp (by rw [hsort]; simp)
    have hqm : (q.1, q.2) ∈ positionsOf (canon s) := by
      rw [Prod.mk.eta]
      exact ((sortPositions_perm (canon s)).mem_iff).mp (by rw [hsort]; simp)
    obtain ⟨hpk, hpf⟩ := (mem_positionsOf _ _ _).mp hpm
    obtain ⟨hqk, hqf⟩ := (mem_positionsOf _ _ _).mp hqm
    have hsnd : p.2 ≠ q.2 := by
      have hnd := snds_sort_nodup (canon s)
      rw [hsort] at hnd
      simp only [List.map_cons, List.nodup_cons, List.mem_cons] at hnd
      intro he
      exact hnd.1 (Or.inl he)
    refine ⟨p.2, q.2, p.1, q.1, hpk, hqk, hsnd, hpf, hqf, hpq1, hnorm, ?_⟩
    intro c hc ic hic hca
    have hcm : (ic, c) ∈ positionsOf (canon s) := (mem_positionsOf _ _ _).mpr ⟨hc, hic⟩
    have hcs : (ic, c) ∈ sortPositions (canon s) :=
      ((sortPositions_perm (canon s)).mem_iff).mpr hcm
    rw [hsort] at hcs
    rcases List.mem_cons.mp hcs with he | hcs2
    · exfalso
      apply hca
      rw [Prod.mk.injEq] at he
      exact he.2
    · rcases List.mem_cons.mp hcs2 with he | hcs3
      · rw [Prod.mk.injEq] at he
        refine ⟨he.1 ▸ hpq1, ?_⟩
        intro hcb
        exact absurd he.2 hcb
      · have h1 := (List.pairwise_cons.mp hplt).1 (ic, c) (List.mem_cons_of_mem _ hcs3)
        have h2 := (List.pairwise_cons.mp (List.pairwise_cons.mp hplt).2).1 (ic, c) hcs3
        exact ⟨h1, fun _ => h2⟩

theorem C1_first_two_categories_witness :
    (∃ a ∈ keywords, ∃ b ∈ keywords, a ≠ b ∧
      (pyFind a (canon (strL "くもり　昼前から晴れ　所により　朝まで　雨"))).isSome = true ∧
      (pyFind b (canon (strL "くもり　昼前から晴れ　所により　朝まで　雨"))).isSome = true) ∧
    (∃ a b ia ib, a ∈ keywords ∧ b ∈ keywords ∧ a ≠ b ∧
      pyFind a (canon (strL "くもり　昼前から晴れ　所により　朝まで　雨")) = some ia ∧
      pyFind b (canon (strL "くもり　昼前から晴れ　所により　朝まで　雨")) = some ib ∧ ia < ib ∧
      normalize_weather_text (strL "くもり　昼前から晴れ　所により　朝まで　雨") =
        a ++ strL "のち" ++ b ∧
      (∀ c ∈ keywords, ∀ ic,
        pyFind c (canon (strL "くもり　昼前から晴れ　所により　朝まで　雨")) = some ic →
        c ≠ a → ia < ic ∧ (c ≠ b → ib < ic))) :=
  ⟨by decide, C1_first_two_categories (strL "くもり　昼前から晴れ　所により　朝まで　雨") (by decide)⟩


theorem kw_ne_nil : ∀ a ∈ keywords, a ≠ [] := by decide

theorem kw_no_fw : ∀ a ∈ keywords, '　' ∉ a := by decide

theorem kw_no_kumo : ∀ a ∈ keywords, '曇' ∉ a := by decide

theorem replFw_fix (a : List Char) (h : '　' ∉ a) : replFw a = a := by
  induction a with
  | nil => rfl
  | cons c r ih =>
    have hc : c ≠ '　' := fun he => h (he ▸ List.mem_cons_self c r)
    simp [replFw, hc, ih (fun hm => h (List.mem_cons_of_mem c hm))]

theorem replKumo_append (a b : List Char) :
    replKumo (a ++ b) = replKumo a ++ replKumo b := by
  induction a with
  | nil => rfl
  | cons c r ih =>
    by_cases hc : c = '曇' <;> simp [replKumo, hc, ih]

theorem replKumo_fix (a : List Char) (h : '曇' ∉ a) : replKumo a = a := by
  induction a with
  | nil => rfl
  | cons c r ih =>
    have hc : c ≠ '曇' := fun he => h (he ▸ List.mem_cons_self c r)
    simp [replKumo, hc, ih (fun hm => h (List.mem_cons_of_mem c hm))]

theorem replKumori_startsWith_pres (a : List Char) :
    ∀ x, '曇' ∉ a → a <+: x → a <+: replKumori x := by
  induction a with
  | nil => intro x _ _; exact List.nil_prefix
  | cons c a2 ih =>
    intro x hk hpre
    obtain ⟨w, hw⟩ := hpre
    subst hw
    have hc : c ≠ '曇' := fun he => hk (he ▸ List.mem_cons_self c a2)
    have hstep : replKumori (c :: (a2 ++ w)) = c :: replKumori (a2 ++ w) := by
      cases h2 : a2 ++ w with
      | nil => rfl
      | cons d r => simp [replKumori, hc]
    rw [List.cons_append, hstep]
    obtain ⟨t2, ht2⟩ := ih (a2 ++ w) (fun hm => hk (List.mem_cons_of_mem c hm)) ⟨w, rfl⟩
    exact ⟨t2, by rw [List.cons_append, ht2]⟩

theorem canon_startsWith_of_strip (s a : List Char) (hfw : '　' ∉ a)
    (hk : '曇' ∉ a) (hpre : a <+: pyStrip s) : a <+: canon s := by
  unfold canon
  rw [pyStrip_replFw]
  have h1 : a <+: replFw (pyStrip s) := by
    obtain ⟨w, hw⟩ := hpre
    rw [← hw, replFw_append, replFw_fix a hfw]
    exact ⟨replFw w, rfl⟩
  obtain ⟨w2, hw2⟩ := replKumori_startsWith_pres a _ hk h1
  rw [← hw2, replKumo_append, replKumo_fix a hk]
  exact ⟨replKumo w2, rfl⟩

/-- C4: a keyword occurring two or more times while no other keyword occurs
normalizes to that single category alone, never AのちA; and the output of
normalize_weather_text never shows the same category on both sides of のち. -/
theorem C4_no_adjacent_duplicate_category :
    (∀ s k, k ∈ keywords → 2 ≤ countOcc k (canon s) →
      (∀ k2 ∈ keywords, k2 ≠ k → pyFind k2 (canon s) = none) →
      normalize_weather_text s = k) ∧
    (∀ s a, a ∈ keywords → normalize_weather_text s ≠ a ++ strL "のち" ++ a) := by
  constructor
  · intro s k hk hcount hothers
    have hpos : 0 < countOcc k (canon s) := by omega
    unfold countOcc at hpos
    rw [List.countP_pos_iff] at hpos
    obtain ⟨i, _, hip⟩ := hpos
    have hsome := pyFind_isSome_of_prefix_drop k (canon s) i (kw_ne_nil k hk) hip
    obtain ⟨j, hj⟩ := Option.isSome_iff_exists.mp hsome
    simp only [keywords, List.mem_cons, List.not_mem_nil, or_false] at hk
    rcases hk with rfl | rfl | rfl | rfl
    · have h2 := hothers (strL "くもり") (by simp [keywords]) (by decide)
      have h3 := hothers (strL "雨") (by simp [keywords]) (by decide)
      have h4 := hothers (strL "雪") (by simp [keywords]) (by decide)
      have hpeq : positionsOf (canon s) = [(j, strL "晴れ")] := by
        simp [positionsOf, keywords, hj, h2, h3, h4]
      have hfl : foundList (canon s) = [strL "晴れ"] := by
        rw [foundList_eq_snds']
        rw [show sortPositions (canon s) = [(j, strL "晴れ")] by
          unfold sortPositions; rw [hpeq]; rfl]
        rfl
      unfold normalize_weather_text
      rw [hfl]
    · have h2 := hothers (strL "晴れ") (by simp [keywords]) (by decide)
      have h3 := hothers (strL "雨") (by simp [keywords]) (by decide)
      have h4 := hothers (strL "雪") (by simp [keywords]) (by decide)
      have hpeq : positionsOf (canon s) = [(j, strL "くもり")] := by
        simp [positionsOf, keywords, hj, h2, h3, h4]
      have hfl : foundList (canon s) = [strL "くもり"] := by
        rw [foundList_eq_snds']
        rw [show sortPositions (canon s) = [(j, strL "くもり")] by
          unfold sortPositions; rw [hpeq]; rfl]
        rfl
      unfold normalize_weather_text
      rw [hfl]
    · have h2 := hothers (strL "晴れ") (by simp [keywords]) (by decide)
      have h3 := hothers (strL "くもり") (by simp [keywords]) (by decide)
      have h4 := hothers (strL "雪") (by simp [keywords]) (by decide)
      have hpeq : positionsOf (canon s) = [(j, strL "雨")] := by
        simp [positionsOf, keywords, hj, h2, h3, h4]
      have hfl : foundList (canon s) = [strL "雨"] := by
        rw [foundList_eq_snds']
        rw [show sortPositions (canon s) = [(j, strL "雨")] by
          unfold sortPositions; rw [hpeq]; rfl]
        rfl
      unfold normalize_weather_text
      rw [hfl]
    · have h2 := hothers (strL "晴れ") (by simp [keywords]) (by decide)
      have h3 := hothers (strL "くもり") (by simp [keywords]) (by decide)
      have h4 := hothers (strL "雨") (by simp [keywords]) (by decide)
      have hpeq : positionsOf (canon s) = [(j, strL "雪")] := by
        simp [positionsOf, keywords, hj, h2, h3, h4]
      have hfl : foundList (canon s) = [strL "雪"] := by
        rw [foundList_eq_snds']
        rw [show sortPositions (canon s) = [(j, strL "雪")] by
          unfold sortPositions; rw [hpeq]; rfl]
        rfl
      unfold normalize_weather_text
      rw [hfl]
  · intro s a ha hcontra
    rcases hf : foundList (canon s) with _ | ⟨x, _ | ⟨y, rest⟩⟩
    · have h1 : normalize_weather_text s = pyStrip s := by
        unfold normalize_weather_text
        rw [hf]
      rw [h1] at hcontra
      have hpre : a <+: pyStrip s := by
        rw [hcontra, List.append_assoc]
        exact ⟨strL "のち" ++ a, rfl⟩
      have hcp := canon_startsWith_of_strip s a (kw_no_fw a ha) (kw_no_kumo a ha) hpre
      obtain ⟨w, hw⟩ := hcp
      have hsome : (pyFind a (canon s)).isSome = true := by
        apply pyFind_isSome_of_prefix_drop a _ 0 (kw_ne_nil a ha)
        rw [List.drop_zero, ← hw]
        exact List.isPrefixOf_iff_prefix.mpr ⟨w, rfl⟩
      obtain ⟨i, hi⟩ := Option.isSome_iff_exists.mp hsome
      have hm : (i, a) ∈ positionsOf (canon s) := (mem_positionsOf _ _ _).mpr ⟨ha, hi⟩
      have hne : positionsOf (canon s) ≠ [] := by
        intro h0
        rw [h0] at hm
        simp at hm
      exact foundList_ne_nil (canon s) hne hf
    · have h1 : normalize_weather_text s = x := by
        unfold normalize_weather_text
        rw [hf]
      rw [h1] at hcontra
      have hx : x ∈ keywords := foundList_mem_keywords _ x (by rw [hf]; simp)
      revert hcontra
      simp only [keywords, List.mem_cons, List.not_mem_nil, or_false] at hx ha
      rcases hx with rfl | rfl | rfl | rfl <;> rcases ha with rfl | rfl | rfl | rfl <;> decide
    · have h1 : normalize_weather_text s = x ++ strL "のち" ++ y := by
        unfold normalize_weather_text
        rw [hf]
      rw [h1] at hcontra
      have hx : x ∈ keywords := foundList_mem_keywords _ x (by rw [hf]; simp)
      have hy : y ∈ keywords := foundList_mem_keywords _ y (by rw [hf]; simp)
      have hxy : x ≠ y := by
        have hc := foundList_chain (canon s)
        rw [hf] at hc
        exact (List.chain'_cons.mp hc).1
      revert hcontra hxy
      simp only [keywords, List.mem_cons, List.not_mem_nil, or_false] at hx hy ha
      rcases hx with rfl | rfl | rfl | rfl <;> rcases hy with rfl | rfl | rfl | rfl <;>
        rcases ha with rfl | rfl | rfl | rfl <;> decide

theorem C4_no_adjacent_duplicate_category_witness :
    ((strL "晴れ") ∈ keywords ∧
     2 ≤ countOcc (strL "晴れ") (canon (strL "晴れ 時々 晴れ")) ∧
     (∀ k2 ∈ keywords, k2 ≠ strL "晴れ" →
       pyFind k2 (canon (strL "晴れ 時々 晴れ")) = none)) ∧
    normalize_weather_text (strL "晴れ 時々 晴れ") = strL "晴れ" ∧
    normalize_weather_text (strL "雨のち晴れ") ≠ strL "雨" ++ strL "のち" ++ strL "雨" :=
  ⟨⟨by decide, by decide, by decide⟩,
   C4_no_adjacent_duplicate_category.1 (strL "晴れ 時々 晴れ") (strL "晴れ")
     (by decide) (by decide) (by decide),
   C4_no_adjacent_duplicate_category.2 (strL "雨のち晴れ") (strL "雨") (by decide)⟩

end WeatherBot
